import Mathlib

/-!
Shallow embedding of the stream supervision core of the `iptv-re-streamer`
repository (the `StreamManager` class in the backend source).

Conventions of the embedding:
* Machine timestamps (`Date.now()`, file `mtime`) are integers in milliseconds.
* The floating-point arithmetic of the backoff computation
  (`Math.min(baseDelay * Math.pow(1.5, attempt), maxBackoffDelay)`) is modelled
  over `ℚ`: for the magnitudes involved (base 5000 ms, cap 60000 ms, at most a
  few dozen attempts) every intermediate IEEE-754 double value is exactly
  representable, so the rational model computes the same numbers.
* The per-id mutable maps of the class (`streams`, `processes`,
  `reconnectAttempts`, `reconnectTimers`, `screenshotTimers`,
  `segmentHealthChecks`, `monitors`) are modelled as functions from stream id
  to the stored value; a pending `setTimeout`/`setInterval` handle is modelled
  as the Boolean "a timer for this id is pending/active".
* Awaited external effects (the playlist fetch, the ffmpeg spawn, the ffprobe
  source probe, filesystem contents) are inputs of the corresponding step
  functions, so a step function applied to one outcome is the synchronous
  mutation the source performs for that outcome.
* JavaScript exceptions on paths the embedding treats as non-failing
  (`child.kill` on a live handle) are not modelled; the corresponding `catch`
  blocks in the source are unreachable under that assumption.
-/

/-- Pointwise update of a map keyed by stream id. -/
def upd {α : Type} (f : String → α) (a : String) (v : α) : String → α :=
  fun x => if x = a then v else f x

/-- Lifecycle status of a stream (`stream.status` strings in the source). -/
inductive Status where
  | stopped
  | starting
  | running
  | error
deriving DecidableEq, Repr

/-- Derived health signal of a stream (`stream.health` strings in the source). -/
inductive Health where
  | unknown
  | good
  | degraded
  | poor
  | failed
deriving DecidableEq, Repr

/-- One entry of `stream.errors.recent`. -/
structure ErrEntry where
  timestamp : Int
  type : String
  message : String
deriving DecidableEq, Repr

/-- The `stream.errors` object (`total` and `byType` are initialised but never
incremented by `_recordError`, so only `recent` evolves). -/
structure Errors where
  total : Nat
  recent : List ErrEntry
deriving DecidableEq, Repr

/-- The `stream.stats` object. -/
structure Stats where
  uptime : Nat
  restarts : Nat
  lastError : Option String
  lastRestart : Option Int
deriving DecidableEq, Repr

/-- The `stream.diagnostics` object (union of the fields the various code
paths write; fields a path does not mention are left unchanged by it). -/
structure Diagnostics where
  lastErrorType : Option String
  errorCount : Nat
  networkErrors : Nat
  sourceErrors : Nat
  ffmpegErrors : Nat
  systemErrors : Nat
  segmentGaps : Nat
  lastHealthCheck : Option Int
  healthCheckStatus : Option String
  segmentCount : Nat
  latestSegment : Option String
  latestSegmentAge : Option Int
  reconnectAttempt : Nat
  maxReconnectAttempts : Nat
  nextReconnectTime : Option ℚ
  consecutiveErrorType : Option String
  consecutiveErrorCount : Nat
  sourceAvailable : Option Bool
  lastSourceCheck : Option Int
deriving DecidableEq, Repr

/-- The `stream.streamInfo` enrichment object. -/
structure StreamInfo where
  resolution : Option String
  rawResolution : Option String
  videoCodec : Option String
  audioCodec : Option String
  bitrate : Option ℚ
  audioBitrate : Option Nat
  fps : Option ℚ
deriving DecidableEq, Repr

/-- A stream record, the value stored in `this.streams[id]`. -/
structure StreamRec where
  id : String
  name : String
  url : String
  status : Status
  health : Health
  stats : Stats
  diagnostics : Diagnostics
  errors : Errors
  streamInfo : StreamInfo
  selectedResolution : Option String
  createdAt : Int
deriving DecidableEq, Repr

/-- Zeroed diagnostics, as initialised by `addStream` / the lazy init blocks. -/
def Diagnostics.init : Diagnostics :=
  { lastErrorType := none
    errorCount := 0
    networkErrors := 0
    sourceErrors := 0
    ffmpegErrors := 0
    systemErrors := 0
    segmentGaps := 0
    lastHealthCheck := none
    healthCheckStatus := none
    segmentCount := 0
    latestSegment := none
    latestSegmentAge := none
    reconnectAttempt := 0
    maxReconnectAttempts := 0
    nextReconnectTime := none
    consecutiveErrorType := none
    consecutiveErrorCount := 0
    sourceAvailable := none
    lastSourceCheck := none }

/-- Empty stream-info object. -/
def StreamInfo.init : StreamInfo :=
  { resolution := none
    rawResolution := none
    videoCodec := none
    audioCodec := none
    bitrate := none
    audioBitrate := none
    fps := none }

/-- The `errors.recent` eviction step of `_recordError`: push the new entry,
then `if (recent.length > 10) recent = recent.slice(-10)`. -/
def recordRecentStep (l : List ErrEntry) (e : ErrEntry) : List ErrEntry :=
  let l2 := l ++ [e]
  if l2.length > 10 then l2.drop (l2.length - 10) else l2

/-- The effective `analyzeErrorPatterns` of the class (the second definition
in the source shadows the first): if the last three recent errors share a
type, record it in `diagnostics.consecutiveErrorType`/`Count`. -/
def analyzeErrorPatternsRec (st : StreamRec) : StreamRec :=
  if st.errors.recent.length < 3 then st
  else
    let lastThree := st.errors.recent.drop (st.errors.recent.length - 3)
    match lastThree.head? with
    | none => st
    | some fst =>
      if lastThree.all (fun e => e.type = fst.type) then
        { st with diagnostics :=
            { st.diagnostics with
                consecutiveErrorType := some fst.type
                consecutiveErrorCount := lastThree.length } }
      else st

/-- Record-level body of `_recordError(id, errorType, message)`: append to
`errors.recent` (bounded at 10), bump the diagnostics counters, set
`stats.lastError`, then run `analyzeErrorPatterns`. -/
def recordErrorRec (st : StreamRec) (errorType message : String) (now : Int) :
    StreamRec :=
  let st :=
    { st with errors :=
        { st.errors with recent :=
            recordRecentStep st.errors.recent ⟨now, errorType, message.take 500⟩ } }
  let st :=
    { st with diagnostics :=
        { st.diagnostics with
            lastErrorType := some errorType
            errorCount := st.diagnostics.errorCount + 1
            networkErrors :=
              st.diagnostics.networkErrors +
                (if errorType = "network" then 1 else 0)
            sourceErrors :=
              st.diagnostics.sourceErrors +
                (if errorType = "source" then 1 else 0)
            ffmpegErrors :=
              st.diagnostics.ffmpegErrors +
                (if errorType = "ffmpeg" then 1 else 0)
            systemErrors :=
              st.diagnostics.systemErrors +
                (if errorType = "system" then 1 else 0) } }
  let st :=
    { st with stats :=
        { st.stats with
            lastError := some ("[" ++ errorType ++ "] " ++ message.take 200) } }
  analyzeErrorPatternsRec st

/-- The resolution ladder used by `startStream`, `analyzeHlsStreamInfo` and
`_analyzeStreamResolution`: `h >= 1080 → "1080p"`, `h >= 720 → "720p"`,
`h >= 480 → "480p"`, `h >= 360 → "360p"`, otherwise the literal height with a
`p` suffix. -/
def heightLabel (h : Nat) : String :=
  if h ≥ 1080 then "1080p"
  else if h ≥ 720 then "720p"
  else if h ≥ 480 then "480p"
  else if h ≥ 360 then "360p"
  else toString h ++ "p"

/-- Height component of a `WxH` resolution string
(`parseInt(resolution.split('x')[1])`); malformed input maps to 0. -/
def heightOfRes (res : String) : Nat :=
  match (res.splitOn "x").drop 1 with
  | [] => 0
  | h :: _ => (h.takeWhile Char.isDigit).toNat?.getD 0

/-- The body of `_updateStreamHealth(id, health)`: an explicitly supplied
health wins; otherwise classify from the recent (last 5 minutes) error count. -/
def updateStreamHealth (st : StreamRec) (h : Option Health) (now : Int) :
    StreamRec :=
  match h with
  | some hv => { st with health := hv }
  | none =>
    let recentErrors :=
      st.errors.recent.filter (fun e => e.timestamp > now - 5 * 60 * 1000)
    if st.status ≠ .running then
      { st with health := if st.health = .unknown then .good else st.health }
    else if recentErrors.length = 0 then { st with health := .good }
    else if recentErrors.length ≤ 2 then { st with health := .degraded }
    else { st with health := .poor }

/-- The supervisor state: the `StreamManager` instance fields. Function-valued
fields model the per-id maps; `reconnectTimers id = true` means a reconnect
`setTimeout` is pending for `id`, and `reconnectDelayScheduled id` records the
delay that pending timer was scheduled with. -/
structure Manager where
  streams : String → Option StreamRec
  processes : String → Bool
  reconnectAttempts : String → Option Nat
  reconnectTimers : String → Bool
  reconnectDelayScheduled : String → Option ℚ
  screenshotTimers : String → Bool
  segmentHealthChecks : String → Bool
  monitors : String → Bool
  hlsDirs : String → Bool
  screenshotFiles : String → Bool
  maxReconnectAttempts : Nat
  reconnectDelay : ℚ
  maxBackoffDelay : ℚ
  hlsSegmentTime : Nat
  maxSegmentAge : ℚ

/-- Store a record under an id (`this.streams[id] = st` plus `saveConfig`,
whose on-disk effect is not observed by any claim). -/
def Manager.setStream (s : Manager) (id : String) (st : StreamRec) : Manager :=
  { s with streams := upd s.streams id (some st) }

/-- Body of `getStream(id)`. -/
def getStream (s : Manager) (id : String) : Option StreamRec :=
  s.streams id

/-- Body of `addStream(name, url)`. The fresh UUID produced by `uuidv4()` is
the `newId` input; `now` is the creation timestamp. Returns the new record
and the updated manager. -/
def addStream (s : Manager) (newId name url : String) (now : Int) :
    StreamRec × Manager :=
  let stream : StreamRec :=
    { id := newId
      name := name
      url := url
      status := .stopped
      health := .unknown
      stats := { uptime := 0, restarts := 0, lastError := none, lastRestart := none }
      diagnostics := Diagnostics.init
      errors := { total := 0, recent := [] }
      streamInfo := StreamInfo.init
      selectedResolution := none
      createdAt := now }
  (stream, s.setStream newId stream)

/-- Body of `stopStream(id)`: not-found fails; already `stopped` succeeds with
no change; otherwise kill and deregister the process, cancel the reconnect,
screenshot, segment-health and monitoring timers, and set
`status = stopped`, `health = unknown`. -/
def stopStream (s : Manager) (id : String) : Bool × Manager :=
  match s.streams id with
  | none => (false, s)
  | some st =>
    if st.status = .stopped then (true, s)
    else
      (true,
        { s with
            streams := upd s.streams id
              (some { st with status := .stopped, health := .unknown })
            processes := upd s.processes id false
            reconnectTimers := upd s.reconnectTimers id false
            reconnectDelayScheduled := upd s.reconnectDelayScheduled id none
            screenshotTimers := upd s.screenshotTimers id false
            segmentHealthChecks := upd s.segmentHealthChecks id false
            monitors := upd s.monitors id false })

/-- Synchronous part of `restartStream(id)`: stop, then reset
`stats.restarts` to 0. The `startStream` call it schedules after a 1 s
`setTimeout` is a separate `start` step of the transition system. -/
def restartStream (s : Manager) (id : String) : Bool × Manager :=
  match s.streams id with
  | none => (false, s)
  | some _ =>
    let s1 := (stopStream s id).2
    match s1.streams id with
    | none => (true, s1)
    | some st =>
      (true, s1.setStream id { st with stats := { st.stats with restarts := 0 } })

/-- The backoff of `handleReconnect`:
`Math.min(baseDelay * Math.pow(1.5, attempt), maxBackoffDelay)`. -/
def backoffDelay (base cap : ℚ) (attempt : Nat) : ℚ :=
  min (base * (3 / 2) ^ attempt) cap

/-- Body of `handleReconnect(id)`: at or above the attempt ceiling, mark the
stream terminally failed and schedule nothing; otherwise record the next
attempt in diagnostics, increment the counter and schedule a reconnect timer
with the exponential-backoff delay. -/
def handleReconnect (s : Manager) (id : String) (now : Int) : Manager :=
  match s.streams id with
  | none => s
  | some st =>
    let attempts := (s.reconnectAttempts id).getD 0
    let s := { s with reconnectAttempts := upd s.reconnectAttempts id (some attempts) }
    if attempts ≥ s.maxReconnectAttempts then
      s.setStream id
        { st with
            status := .error
            health := .failed
            diagnostics :=
              { st.diagnostics with healthCheckStatus := some "max_reconnect_exceeded" } }
    else
      let delay := backoffDelay s.reconnectDelay s.maxBackoffDelay attempts
      let st :=
        { st with diagnostics :=
            { st.diagnostics with
                nextReconnectTime := some ((now : ℚ) + delay)
                reconnectAttempt := attempts + 1
                maxReconnectAttempts := s.maxReconnectAttempts } }
      { s.setStream id st with
          reconnectAttempts := upd s.reconnectAttempts id (some (attempts + 1))
          reconnectTimers := upd s.reconnectTimers id true
          reconnectDelayScheduled := upd s.reconnectDelayScheduled id (some delay) }

/-- Diagnostics effect of an awaited `testSourceUrl(id)` call whose ffprobe
probe resolved with availability `avail`. -/
def testSourceUrlStep (s : Manager) (id : String) (avail : Bool) (now : Int) :
    Manager :=
  match s.streams id with
  | none => s
  | some st =>
    s.setStream id
      { st with diagnostics :=
          { st.diagnostics with
              lastSourceCheck := some now
              sourceAvailable := some avail } }

/-- Composite body of `startStream(id)` for one resolution of its awaited
calls. `analyzeOk = false` is the `.catch` branch of the playlist analysis;
`variantUrl`/`variantRes` are the selected variant URL and the
`selectedVariantInfo.resolution` it left behind (`none` when the original URL
is kept or no resolution was attached); `spawnOk = false` is the branch where
the ffmpeg `spawn` call throws. Returns the promise value and the new state. -/
def startStreamStep (s : Manager) (id : String) (analyzeOk : Bool)
    (variantUrl : Option String) (variantRes : Option String)
    (spawnOk : Bool) (now : Int) : Bool × Manager :=
  match s.streams id with
  | none => (false, s)
  | some st0 =>
    if st0.status = .running then (true, s)
    else
      let st1 := { st0 with status := .starting }
      let s1 : Manager :=
        { s with
            streams := upd s.streams id (some st1)
            hlsDirs := upd s.hlsDirs id true
            reconnectAttempts := upd s.reconnectAttempts id (some 0)
            reconnectTimers := upd s.reconnectTimers id false
            reconnectDelayScheduled := upd s.reconnectDelayScheduled id none }
      if analyzeOk then
        let st2 :=
          match variantUrl with
          | some u => { st1 with url := u }
          | none => st1
        let st3 :=
          match variantRes with
          | some res =>
            { st2 with
                selectedResolution := some res
                streamInfo :=
                  { st2.streamInfo with
                      resolution := some (heightLabel (heightOfRes res)) } }
          | none => st2
        if spawnOk then
          (true,
            { s1 with
                streams := upd s1.streams id (some { st3 with status := .running })
                processes := upd s1.processes id true
                monitors := upd s1.monitors id true
                screenshotTimers := upd s1.screenshotTimers id true
                segmentHealthChecks := upd s1.segmentHealthChecks id true })
        else
          let st4 := recordErrorRec { st3 with status := .error } "system"
            "Failed to start" now
          (false, { s1 with streams := upd s1.streams id (some st4) })
      else
        let st4 := recordErrorRec { st1 with status := .error } "system"
          "Failed to analyze HLS playlist" now
        (false, { s1 with streams := upd s1.streams id (some st4) })

/-- The `process.on('exit', ...)` observer registered by `startStream`: if the
stream still exists and is marked `running`, record an ffmpeg error, set
`status = error`, drop the process handle and hand off to `handleReconnect`. -/
def exitHandlerStep (s : Manager) (id : String) (exitMsg : String) (now : Int) :
    Manager :=
  match s.streams id with
  | none => s
  | some st =>
    if st.status = .running then
      let st1 := recordErrorRec st "ffmpeg" exitMsg now
      let s1 :=
        { s.setStream id { st1 with status := .error } with
            processes := upd s.processes id false }
      handleReconnect s1 id now
    else s

/-- Firing of a pending reconnect timer: the timer is consumed, the source
probe runs (`testSourceUrl`), and depending on its outcome either
`startStream` or `handleReconnect` is invoked. -/
def reconnectFireStep (s : Manager) (id : String) (avail : Bool)
    (analyzeOk : Bool) (variantUrl variantRes : Option String)
    (spawnOk : Bool) (now : Int) : Manager :=
  let s1 :=
    { s with
        reconnectTimers := upd s.reconnectTimers id false
        reconnectDelayScheduled := upd s.reconnectDelayScheduled id none }
  let s2 := testSourceUrlStep s1 id avail now
  if avail then (startStreamStep s2 id analyzeOk variantUrl variantRes spawnOk now).2
  else handleReconnect s2 id now

/-- Body of `deleteStream(id)`: stop only if currently `running`, remove the
HLS segment directory and the preview screenshot, clear the screenshot,
segment-health and monitoring timers, drop the record and the process
reference. The reconnect timer map is not touched by `deleteStream` itself. -/
def deleteStream (s : Manager) (id : String) : Bool × Manager :=
  match s.streams id with
  | none => (false, s)
  | some st =>
    let s1 := if st.status = .running then (stopStream s id).2 else s
    (true,
      { s1 with
          hlsDirs := upd s1.hlsDirs id false
          screenshotFiles := upd s1.screenshotFiles id false
          screenshotTimers := upd s1.screenshotTimers id false
          segmentHealthChecks := upd s1.segmentHealthChecks id false
          monitors := upd s1.monitors id false
          streams := upd s1.streams id none
          processes := upd s1.processes id false })

/-- One `.ts` segment file on disk: name, `mtime` (ms) and size (bytes). -/
structure SegFile where
  name : String
  mtime : Int
  size : Nat
deriving DecidableEq, Repr

/-- Snapshot of a stream's HLS output directory as seen by the health and
resolution checks: whether the directory exists, the playlist content if
`playlist.m3u8` exists, and the directory listing. -/
structure FsView where
  dirExists : Bool
  playlist : Option String
  segments : List SegFile
deriving DecidableEq, Repr

/-- Number of non-overlapping occurrences of `".ts"` in a character list. -/
def countTs : List Char → Nat
  | '.' :: 't' :: 's' :: rest => countTs rest + 1
  | _ :: rest => countTs rest
  | [] => 0

/-- Segment count of `checkStreamSegmentHealth`:
`(content.match(/\.ts/g) || []).length`, the number of non-overlapping
occurrences of `".ts"`. -/
def segmentCountOf (content : String) : Nat :=
  countTs content.data

/-- Whether a filename ends in `".ts"` (`file.endsWith('.ts')`). -/
def endsWithTs (s : String) : Bool :=
  match s.data.reverse with
  | 's' :: 't' :: '.' :: _ => true
  | _ => false

/-- First element of the segment list sorted by `mtime` descending (the
source sorts with a stable sort and takes index 0, i.e. the first-listed
file among those with maximal `mtime`). -/
def latestSeg (l : List SegFile) : Option SegFile :=
  l.foldl
    (fun acc f =>
      match acc with
      | none => some f
      | some g => if f.mtime > g.mtime then some f else some g)
    none

/-- The `.ts` files of a directory listing, as collected by the checks. -/
def tsFiles (fs : FsView) : List SegFile :=
  fs.segments.filter (fun f => endsWithTs f.name)

/-- First `1*x2*` resolution pair in a string that starts with one
(`(\d+x\d+)` anchored at the front of the remainder after a marker). -/
def parseResPair (t : String) : Option (Nat × Nat) :=
  let w := t.takeWhile Char.isDigit
  if w.isEmpty then none
  else
    let rest := t.drop w.length
    if rest.startsWith "x" then
      let h := (rest.drop 1).takeWhile Char.isDigit
      if h.isEmpty then none
      else some (w.toNat?.getD 0, h.toNat?.getD 0)
    else none

/-- Digits right after a marker, for the `BANDWIDTH=(\d+)` captures. -/
def parseNatAfter (t : String) : Option Nat :=
  let w := t.takeWhile Char.isDigit
  if w.isEmpty then none else w.toNat?

/-- Last occurrence of `marker` in `line` that is followed by a successful
parse, matching the greedy `.*MARKER=(...)` regexes of the source. -/
def matchLastAfter {α : Type} (line marker : String) (p : String → Option α) :
    Option α :=
  ((line.splitOn marker).drop 1).reverse.findSome? p

/-- The `content.match(/#EXT-X-STREAM-INF:.*RESOLUTION=(\d+x\d+)/)` capture:
the first line carrying both markers in order (a dot in these regexes cannot
cross a newline). -/
def matchStreamInfRes (content : String) : Option (Nat × Nat) :=
  (content.splitOn "\n").findSome? fun line =>
    match line.splitOn "#EXT-X-STREAM-INF:" with
    | _ :: rest :: _ => matchLastAfter rest "RESOLUTION=" parseResPair
    | _ => none

/-- The `content.match(/RESOLUTION=(\d+x\d+)/)` capture (no marker prefix). -/
def matchAnyRes (content : String) : Option (Nat × Nat) :=
  (content.splitOn "\n").findSome? fun line =>
    matchLastAfter line "RESOLUTION=" parseResPair

/-- The `content.match(/#EXT-X-STREAM-INF:.*BANDWIDTH=(\d+)/)` capture. -/
def matchStreamInfBandwidth (content : String) : Option Nat :=
  (content.splitOn "\n").findSome? fun line =>
    match line.splitOn "#EXT-X-STREAM-INF:" with
    | _ :: rest :: _ => matchLastAfter rest "BANDWIDTH=" parseNatAfter
    | _ => none

/-- Insertion into a list sorted by `mtime` descending, placing the inserted
file before ties (the inserted file is the originally-earlier one, matching
the stable sort of the source). -/
def insertByMtimeDesc (f : SegFile) : List SegFile → List SegFile
  | [] => [f]
  | g :: t => if f.mtime ≥ g.mtime then f :: g :: t else g :: insertByMtimeDesc f t

/-- Stable sort by `mtime` descending (`.sort((a, b) => b.time - a.time)`). -/
def newestFirst : List SegFile → List SegFile
  | [] => []
  | f :: t => insertByMtimeDesc f (newestFirst t)

/-- Body of `_analyzeStreamResolution(id)` over a directory snapshot: the
selected-variant resolution wins; otherwise the playlist `RESOLUTION=` tags,
then a bandwidth-based estimate, then a segment-size-based estimate. -/
def analyzeStreamResolution (fs : FsView) (st : StreamRec) : Option String :=
  if ¬ fs.dirExists then none
  else
    match st.selectedResolution with
    | some res =>
      if (res.splitOn "x").length > 1 then
        let h := heightOfRes res
        if h ≥ 1080 then some "1080p"
        else if h ≥ 720 then some "720p"
        else if h ≥ 480 then some "480p"
        else if h ≥ 360 then some "360p"
        else some res
      else some res
    | none =>
      match fs.playlist with
      | none => none
      | some content =>
        match matchStreamInfRes content with
        | some (_, h) => some (heightLabel h)
        | none =>
          match matchAnyRes content with
          | some (_, h) => some (heightLabel h)
          | none =>
            match matchStreamInfBandwidth content with
            | some bw =>
              if bw > 5000000 then some "1080p"
              else if bw > 2500000 then some "720p"
              else if bw > 1000000 then some "480p"
              else some "360p"
            | none =>
              match latestSeg (tsFiles fs) with
              | none => none
              | some _ =>
                let sorted := newestFirst (tsFiles fs)
                let k := min 3 sorted.length
                let tot : Nat := (sorted.take k).foldl (fun acc f => acc + f.size) 0
                let avgSize : ℚ := (tot : ℚ) / (k : ℚ)
                if avgSize > 2000000 then some "1080p"
                else if avgSize > 1000000 then some "720p"
                else if avgSize > 500000 then some "480p"
                else some "360p"

/-- Body of `checkStreamSegmentHealth(id)` over a directory snapshot `fs`.
`envMaxSegmentAge` is the numeric value of the `MAX_SEGMENT_AGE` environment
variable as read inside this method (`process.env.MAX_SEGMENT_AGE || 30`,
interpreted in seconds); `now` is `Date.now()` in ms. -/
def checkStreamSegmentHealth (s : Manager) (id : String) (fs : FsView)
    (envMaxSegmentAge : Option ℚ) (now : Int) : Manager :=
  match s.streams id with
  | none => s
  | some st =>
    if st.status ≠ .running then s
    else
      let s := { s with hlsDirs := upd s.hlsDirs id true }
      let st := { st with diagnostics := { st.diagnostics with lastHealthCheck := some now } }
      match fs.playlist with
      | none =>
        let st := recordErrorRec st "segment" "Playlist file not found" now
        let st := { st with diagnostics := { st.diagnostics with healthCheckStatus := some "No playlist" } }
        s.setStream id (updateStreamHealth st (some .poor) now)
      | some content =>
        let st := { st with diagnostics := { st.diagnostics with segmentCount := segmentCountOf content } }
        if segmentCountOf content = 0 then
          let st := recordErrorRec st "segment" "No segments in playlist" now
          let st := { st with diagnostics := { st.diagnostics with healthCheckStatus := some "No segments" } }
          s.setStream id (updateStreamHealth st (some .poor) now)
        else
          match latestSeg (tsFiles fs) with
          | none =>
            let st := recordErrorRec st "segment" "No segment files in directory" now
            let st := { st with diagnostics := { st.diagnostics with healthCheckStatus := some "No segment files" } }
            s.setStream id (updateStreamHealth st (some .poor) now)
          | some latest =>
            let segmentAge : ℚ := ((now - latest.mtime : Int) : ℚ) / 1000
            let st := { st with diagnostics :=
                { st.diagnostics with
                    latestSegment := some latest.name
                    latestSegmentAge := some (round segmentAge) } }
            let maxAge := envMaxSegmentAge.getD 30
            if segmentAge > maxAge then
              let st := recordErrorRec st "segment" "Latest segment is too old" now
              let st := { st with diagnostics := { st.diagnostics with healthCheckStatus := some "Stale segments" } }
              s.setStream id (updateStreamHealth st (some .poor) now)
            else
              let st := { st with diagnostics := { st.diagnostics with healthCheckStatus := some "Healthy" } }
              let st := updateStreamHealth st (some .good) now
              let st :=
                if st.streamInfo.resolution = none then
                  match analyzeStreamResolution fs st with
                  | some r => { st with streamInfo := { st.streamInfo with resolution := some r } }
                  | none => st
                else st
              s.setStream id st

/-- A response of the HTTP fetch capability: status code, optional `Location`
header and body text. -/
structure HResp where
  status : Nat
  location : Option String
  body : String
deriving DecidableEq, Repr

/-- The `${urlObj.protocol}//${urlObj.host}` origin used for relative
redirect locations. -/
def urlOrigin (url : String) : String :=
  match url.splitOn "/" with
  | proto :: _ :: host :: _ => proto ++ "//" ++ host
  | _ => url

/-- Absolute form of a redirect `Location` header. -/
def redirectTarget (url loc : String) : String :=
  if loc.startsWith "http" then loc else urlOrigin url ++ loc

/-- Handling of a non-redirect response in `fetchUrl`. -/
def nonRedirectResult (r : HResp) : Except String String :=
  if r.status ≠ 200 then
    .error ("Request failed with status code " ++ toString r.status)
  else .ok r.body

/-- The `fetchUrl(url, maxRedirects)` helper of `analyzeHlsPlaylist`: follow
3xx responses carrying a `Location` header while the redirect budget lasts,
rejecting with `'Too many redirects'` once it is exhausted. `w` maps each URL
to the response the network gives for it. -/
def fetchUrl (w : String → HResp) : Nat → String → Except String String
  | 0, url =>
    let r := w url
    match r.location with
    | some _ =>
      if 300 ≤ r.status ∧ r.status < 400 then .error "Too many redirects"
      else nonRedirectResult r
    | none => nonRedirectResult r
  | b + 1, url =>
    let r := w url
    match r.location with
    | some loc =>
      if 300 ≤ r.status ∧ r.status < 400 then
        fetchUrl w b (redirectTarget url loc)
      else nonRedirectResult r
    | none => nonRedirectResult r

/-- One variant entry parsed from a master playlist. -/
structure Variant where
  url : String
  resolution : Option (Nat × Nat)
  bandwidth : Nat
  height : Nat
deriving DecidableEq, Repr

/-- The base-relative URL resolution of a variant line
(`url.substring(0, url.lastIndexOf('/') + 1) + variantUrl`). -/
def resolveVariantUrl (url variantUrl : String) : String :=
  if variantUrl.startsWith "http" then variantUrl
  else
    let parts := url.splitOn "/"
    if parts.length ≤ 1 then variantUrl
    else String.intercalate "/" parts.dropLast ++ "/" ++ variantUrl

/-- The `RESOLUTION=` capture of a single `#EXT-X-STREAM-INF:` line. -/
def lineStreamInfRes (line : String) : Option (Nat × Nat) :=
  match line.splitOn "#EXT-X-STREAM-INF:" with
  | _ :: rest :: _ => matchLastAfter rest "RESOLUTION=" parseResPair
  | _ => none

/-- The `BANDWIDTH=` capture of a single `#EXT-X-STREAM-INF:` line. -/
def lineStreamInfBandwidth (line : String) : Option Nat :=
  match line.splitOn "#EXT-X-STREAM-INF:" with
  | _ :: rest :: _ => matchLastAfter rest "BANDWIDTH=" parseNatAfter
  | _ => none

/-- The variant-collection loop of `analyzeHlsPlaylist`: a line containing
`#EXT-X-STREAM-INF` contributes a variant when the following line is a
non-empty non-comment URL, which is then skipped. -/
def parseVariants (url : String) : List String → List Variant
  | [] => []
  | line :: rest =>
    if (line.splitOn "#EXT-X-STREAM-INF").length > 1 then
      match rest with
      | [] => []
      | vurl :: rest2 =>
        if vurl ≠ "" ∧ ¬ vurl.startsWith "#" then
          { url := resolveVariantUrl url vurl
            resolution := lineStreamInfRes line
            bandwidth := (lineStreamInfBandwidth line).getD 0
            height := ((lineStreamInfRes line).map Prod.snd).getD 0 }
            :: parseVariants url rest2
        else parseVariants url (vurl :: rest2)
    else parseVariants url rest
termination_by l => l.length
decreasing_by all_goals (simp [List.length_cons]; try omega)

/-- Head of the variant list sorted by bandwidth descending with a stable
sort: the first-seen variant of maximal bandwidth. -/
def selectVariant (vs : List Variant) : Option Variant :=
  vs.foldl
    (fun acc v =>
      match acc with
      | none => some v
      | some b => if v.bandwidth > b.bandwidth then some v else some b)
    none

/-- Body of `analyzeHlsPlaylist(url)`: fetch the playlist with a redirect
budget of 5; on any fetch failure, or when the document is not a master
playlist or yields no variants, resolve with the original `url`; otherwise
resolve with the highest-bandwidth variant URL. -/
def analyzeHlsPlaylist (w : String → HResp) (url : String) : String :=
  match fetchUrl w 5 url with
  | .error _ => url
  | .ok content =>
    if (content.splitOn "#EXT-X-STREAM-INF").length > 1 then
      match selectVariant (parseVariants url (content.splitOn "\n")) with
      | some v => v.url
      | none => url
    else url

/-- The URL reached after following `k` redirect hops from `url` in world
`w` (staying put on a non-redirect response). -/
def redirectHop (w : String → HResp) (url : String) : Nat → String
  | 0 => url
  | k + 1 =>
    let cur := redirectHop w url k
    let r := w cur
    match r.location with
    | some loc => if 300 ≤ r.status ∧ r.status < 400 then redirectTarget cur loc else cur
    | none => cur

/-- Whether the response for a URL is a redirect `fetchUrl` would follow. -/
def isRedirectResp (r : HResp) : Prop :=
  300 ≤ r.status ∧ r.status < 400 ∧ r.location.isSome

instance (r : HResp) : Decidable (isRedirectResp r) := by
  unfold isRedirectResp; infer_instance

/-- The events of the supervision core that mutate a stream's lifecycle
state: explicit start/stop/restart, the subprocess exit observer, and the
firing of a pending reconnect timer (which requires one to be pending). -/
inductive Step : Manager → Manager → Prop
  | start (s : Manager) (id : String) (analyzeOk : Bool)
      (vu vr : Option String) (spawnOk : Bool) (now : Int) :
      Step s (startStreamStep s id analyzeOk vu vr spawnOk now).2
  | stop (s : Manager) (id : String) : Step s (stopStream s id).2
  | restart (s : Manager) (id : String) : Step s (restartStream s id).2
  | exit (s : Manager) (id : String) (msg : String) (now : Int) :
      Step s (exitHandlerStep s id msg now)
  | fire (s : Manager) (id : String) (avail analyzeOk : Bool)
      (vu vr : Option String) (spawnOk : Bool) (now : Int) :
      s.reconnectTimers id = true →
      Step s (reconnectFireStep s id avail analyzeOk vu vr spawnOk now)

/-- Reflexive-transitive closure of the supervision events. -/
def Steps : Manager → Manager → Prop := Relation.ReflTransGen Step

/-- The inductive invariant of the process table: a process handle is
registered exactly for `running` streams, and a `running` stream has no
pending reconnect timer. -/
def ProcInv (s : Manager) : Prop :=
  ∀ id st, s.streams id = some st →
    ((s.processes id = true ↔ st.status = .running) ∧
      (st.status = .running → s.reconnectTimers id = false))


/-- A manager with no streams and the default environment configuration
(`MAX_RECONNECT_ATTEMPTS = 10`, `RECONNECT_DELAY = 5 s`,
`MAX_BACKOFF_DELAY = 60 s`, `HLS_SEGMENT_TIME = 4 s`,
`MAX_SEGMENT_AGE = 3 x segment time`, in ms where the constructor converts). -/
def emptyMgr : Manager :=
  { streams := fun _ => none
    processes := fun _ => false
    reconnectAttempts := fun _ => none
    reconnectTimers := fun _ => false
    reconnectDelayScheduled := fun _ => none
    screenshotTimers := fun _ => false
    segmentHealthChecks := fun _ => false
    monitors := fun _ => false
    hlsDirs := fun _ => false
    screenshotFiles := fun _ => false
    maxReconnectAttempts := 10
    reconnectDelay := 5000
    maxBackoffDelay := 60000
    hlsSegmentTime := 4
    maxSegmentAge := 12000 }

/-- The record created by adding one stream to the empty manager. -/
def recA : StreamRec := (addStream emptyMgr "a" "cam" "http://src/video.m3u8" 0).1

/-- The manager holding just that one (stopped) stream. -/
def mgrA : Manager := (addStream emptyMgr "a" "cam" "http://src/video.m3u8" 0).2

/-- The manager after a successful start of stream `"a"`. -/
def mgrRunning : Manager := (startStreamStep mgrA "a" true none none true 0).2

/-- The record of stream `"a"` while running. -/
def runRec : StreamRec := { recA with status := .running }

/-- The manager after the running subprocess exits: status `error`, process
deregistered, first reconnect scheduled. -/
def mgrCrashed : Manager :=
  exitHandlerStep mgrRunning "a" "Process exited with code 1 and signal null" 1000

/-- A running stream whose record already carries a detected resolution. -/
def mgrRunningRes : Manager :=
  Manager.setStream mgrRunning "a"
    { runRec with streamInfo := { StreamInfo.init with resolution := some "720p" } }

/-- The record of the running stream with a resolution already set. -/
def runRecRes : StreamRec :=
  { runRec with streamInfo := { StreamInfo.init with resolution := some "720p" } }

/-- A manager state at the reconnect-attempt ceiling for stream `"a"`. -/
def mgrMax : Manager :=
  { mgrA with reconnectAttempts := upd mgrA.reconnectAttempts "a" (some 10) }

/-- A directory snapshot whose single segment was written at t = 80000 ms. -/
def fsStale : FsView :=
  { dirExists := true
    playlist := some "#EXTM3U\nsegment_000.ts\n"
    segments := [{ name := "segment_000.ts", mtime := 80000, size := 500 }] }

/-- A network in which every URL answers with a 302 redirect to the same
place. -/
def loopWorld : String → HResp := fun _ => { status := 302, location := some "http://x/a", body := "" }

@[simp] theorem upd_self {α : Type} (f : String → α) (a : String) (v : α) :
    upd f a v a = v := by
  simp [upd]

@[simp] theorem upd_other {α : Type} (f : String → α) (a : String) (v : α)
    (x : String) (h : x ≠ a) : upd f a v x = f x := by
  simp [upd, h]

@[simp] theorem recordErrorRec_status (st : StreamRec) (t m : String) (n : Int) :
    (recordErrorRec st t m n).status = st.status := by
  unfold recordErrorRec analyzeErrorPatternsRec
  dsimp only
  repeat' split
  all_goals rfl

theorem proc_false_of_not_running {s : Manager} (h : ProcInv s) {id : String}
    {st : StreamRec} (hs : s.streams id = some st)
    (hst : ¬ st.status = .running) : s.processes id = false := by
  have h1 := (h id st hs).1
  cases hp : s.processes id with
  | false => rfl
  | true => exact absurd (h1.mp hp) hst

theorem procInv_stopStream (s : Manager) (id : String) (h : ProcInv s) :
    ProcInv (stopStream s id).2 := by
  unfold stopStream
  cases hmatch : s.streams id with
  | none => exact h
  | some st =>
    by_cases hst : st.status = .stopped
    · simpa [hst] using h
    · simp only [hst, if_false]
      intro j stj hj
      by_cases hji : j = id
      · subst hji
        simp only [upd_self, Option.some.injEq] at hj
        subst hj
        simp
      · simp only [upd_other _ _ _ _ hji] at hj ⊢
        exact h j stj hj

theorem procInv_restartStream (s : Manager) (id : String) (h : ProcInv s) :
    ProcInv (restartStream s id).2 := by
  unfold restartStream
  cases hmatch : s.streams id with
  | none => exact h
  | some st =>
    dsimp only
    have h1 : ProcInv (stopStream s id).2 := procInv_stopStream s id h
    cases hmatch2 : (stopStream s id).2.streams id with
    | none => exact h1
    | some st2 =>
      intro j stj hj
      by_cases hji : j = id
      · subst hji
        simp only [Manager.setStream, upd_self, Option.some.injEq] at hj
        subst hj
        have := h1 j st2 hmatch2
        simpa using this
      · simp only [Manager.setStream, upd_other _ _ _ _ hji] at hj ⊢
        exact h1 j stj hj

theorem procInv_startStreamStep (s : Manager) (id : String) (a : Bool)
    (vu vr : Option String) (sp : Bool) (n : Int) (h : ProcInv s) :
    ProcInv (startStreamStep s id a vu vr sp n).2 := by
  unfold startStreamStep
  cases hmatch : s.streams id with
  | none => exact h
  | some st0 =>
    dsimp only
    by_cases hr : st0.status = .running
    · simpa [hr] using h
    · have hproc : s.processes id = false := proc_false_of_not_running h hmatch hr
      rw [if_neg hr]
      split
      · split
        · intro j stj hj
          by_cases hji : j = id
          · subst hji
            simp only [upd_self, Option.some.injEq] at hj
            subst hj
            simp
          · simp only [upd_other _ _ _ _ hji] at hj ⊢
            exact h j stj hj
        · intro j stj hj
          by_cases hji : j = id
          · subst hji
            simp only [upd_self, Option.some.injEq] at hj
            subst hj
            simp [hproc]
          · simp only [upd_other _ _ _ _ hji] at hj ⊢
            exact h j stj hj
      · intro j stj hj
        by_cases hji : j = id
        · subst hji
          simp only [upd_self, Option.some.injEq] at hj
          subst hj
          simp [hproc]
        · simp only [upd_other _ _ _ _ hji] at hj ⊢
          exact h j stj hj

theorem procInv_handleReconnect (s : Manager) (id : String) (n : Int)
    (h : ProcInv s)
    (hnr : ∀ st, s.streams id = some st → ¬ st.status = .running) :
    ProcInv (handleReconnect s id n) := by
  unfold handleReconnect
  cases hmatch : s.streams id with
  | none => exact h
  | some st =>
    dsimp only
    have hst := hnr st hmatch
    have hproc : s.processes id = false := proc_false_of_not_running h hmatch hst
    split
    · intro j stj hj
      by_cases hji : j = id
      · subst hji
        simp only [Manager.setStream, upd_self, Option.some.injEq] at hj
        subst hj
        simp [Manager.setStream, hproc]
      · simp only [Manager.setStream, upd_other _ _ _ _ hji] at hj ⊢
        exact h j stj hj
    · intro j stj hj
      by_cases hji : j = id
      · subst hji
        simp only [Manager.setStream, upd_self, Option.some.injEq] at hj
        subst hj
        simp [Manager.setStream, hproc, hst]
      · simp only [Manager.setStream, upd_other _ _ _ _ hji] at hj ⊢
        exact h j stj hj

theorem procInv_testSourceUrlStep (s : Manager) (id : String) (avail : Bool)
    (n : Int) (h : ProcInv s) : ProcInv (testSourceUrlStep s id avail n) := by
  unfold testSourceUrlStep
  cases hmatch : s.streams id with
  | none => exact h
  | some st =>
    dsimp only
    intro j stj hj
    by_cases hji : j = id
    · subst hji
      simp only [Manager.setStream, upd_self, Option.some.injEq] at hj
      subst hj
      simpa using h j st hmatch
    · simp only [Manager.setStream, upd_other _ _ _ _ hji] at hj ⊢
      exact h j stj hj

theorem testSourceUrlStep_status (s : Manager) (id : String) (avail : Bool)
    (n : Int) (j : String) :
    ((testSourceUrlStep s id avail n).streams j).map StreamRec.status =
      (s.streams j).map StreamRec.status := by
  unfold testSourceUrlStep
  cases hmatch : s.streams id with
  | none => rfl
  | some st =>
    dsimp only
    by_cases hji : j = id
    · subst hji
      simp [Manager.setStream, hmatch]
    · simp [Manager.setStream, upd_other _ _ _ _ hji]

theorem procInv_exitHandlerStep (s : Manager) (id : String) (msg : String)
    (n : Int) (h : ProcInv s) : ProcInv (exitHandlerStep s id msg n) := by
  unfold exitHandlerStep
  cases hmatch : s.streams id with
  | none => exact h
  | some st =>
    dsimp only
    by_cases hrun : st.status = .running
    · rw [if_pos hrun]
      apply procInv_handleReconnect
      · intro j stj hj
        by_cases hji : j = id
        · subst hji
          simp only [Manager.setStream, upd_self, Option.some.injEq] at hj
          subst hj
          simp
        · simp only [Manager.setStream, upd_other _ _ _ _ hji] at hj ⊢
          exact h j stj hj
      · intro st2 hst2
        simp only [Manager.setStream, upd_self, Option.some.injEq] at hst2
        subst hst2
        simp
    · rw [if_neg hrun]
      exact h

theorem procInv_reconnectFireStep (s : Manager) (id : String)
    (avail aok : Bool) (vu vr : Option String) (sp : Bool) (n : Int)
    (h : ProcInv s) (htimer : s.reconnectTimers id = true) :
    ProcInv (reconnectFireStep s id avail aok vu vr sp n) := by
  have hnr1 : ∀ st, s.streams id = some st → ¬ st.status = .running := by
    intro st hst hrun2
    have hts := (h id st hst).2 hrun2
    rw [htimer] at hts
    cases hts
  have h1 : ProcInv
      ({ s with
          reconnectTimers := upd s.reconnectTimers id false
          reconnectDelayScheduled := upd s.reconnectDelayScheduled id none } : Manager) := by
    intro j stj hj
    refine ⟨(h j stj hj).1, ?_⟩
    intro hrun
    by_cases hji : j = id
    · subst hji; simp
    · simp only [upd_other _ _ _ _ hji]
      exact (h j stj hj).2 hrun
  have h2 := procInv_testSourceUrlStep
    ({ s with
        reconnectTimers := upd s.reconnectTimers id false
        reconnectDelayScheduled := upd s.reconnectDelayScheduled id none } : Manager)
    id avail n h1
  have hnr2 : ∀ st2,
      (testSourceUrlStep
        ({ s with
            reconnectTimers := upd s.reconnectTimers id false
            reconnectDelayScheduled := upd s.reconnectDelayScheduled id none } : Manager)
        id avail n).streams id = some st2 → ¬ st2.status = .running := by
    intro st2 hst2 hrun
    have hmap := testSourceUrlStep_status
      ({ s with
          reconnectTimers := upd s.reconnectTimers id false
          reconnectDelayScheduled := upd s.reconnectDelayScheduled id none } : Manager)
      id avail n id
    rw [hst2] at hmap
    cases hs : s.streams id with
    | none => simp [show s.streams id = none from hs] at hmap
    | some st' =>
      rw [show ({ s with
          reconnectTimers := upd s.reconnectTimers id false
          reconnectDelayScheduled := upd s.reconnectDelayScheduled id none } : Manager).streams id
        = some st' from hs] at hmap
      simp only [Option.map_some', Option.some.injEq] at hmap
      rw [hmap] at hrun
      exact hnr1 st' hs hrun
  unfold reconnectFireStep
  dsimp only
  split
  · exact procInv_startStreamStep _ id aok vu vr sp n h2
  · exact procInv_handleReconnect _ id n h2 hnr2

theorem procInv_step {s s' : Manager} (h : ProcInv s) (hs : Step s s') :
    ProcInv s' := by
  cases hs with
  | start id a vu vr sp n => exact procInv_startStreamStep s id a vu vr sp n h
  | stop id => exact procInv_stopStream s id h
  | restart id => exact procInv_restartStream s id h
  | exit id msg n => exact procInv_exitHandlerStep s id msg n h
  | fire id avail aok vu vr sp n ht =>
    exact procInv_reconnectFireStep s id avail aok vu vr sp n h ht

theorem procInv_steps {s s' : Manager} (h : ProcInv s) (hs : Steps s s') :
    ProcInv s' := by
  induction hs with
  | refl => exact h
  | tail _ hstep ih => exact procInv_step ih hstep

/-- C1: after any sequence of start, stop, restart, subprocess-exit-handler
and reconnect-timer steps from a state satisfying the process-table
invariant, a stream whose status is `running` has a process handle
registered, and a stream whose status is `stopped` or `error` has none. -/
theorem c1_status_process_invariant (s s' : Manager) (hinv : ProcInv s)
    (hsteps : Steps s s') (id : String) (st : StreamRec)
    (hst : s'.streams id = some st) :
    (st.status = .running → s'.processes id = true) ∧
      ((st.status = .stopped ∨ st.status = .error) → s'.processes id = false) := by
  have h' := procInv_steps hinv hsteps
  refine ⟨fun hr => (h' id st hst).1.mpr hr, fun hse => ?_⟩
  have hnr : ¬ st.status = .running := by
    rcases hse with h1 | h1 <;> simp [h1]
  exact proc_false_of_not_running h' hst hnr

theorem pow_three_halves_twelve_le (n : Nat) (h : 7 ≤ n) :
    (12 : ℚ) ≤ (3 / 2) ^ n := by
  calc (12 : ℚ) ≤ (3 / 2) ^ 7 := by norm_num
    _ ≤ (3 / 2) ^ n := pow_le_pow_right₀ (by norm_num) h

/-- C2: whenever `handleReconnect` schedules a reconnect for an attempt
number `n` below the maximum, the delay it schedules is
`min(baseDelay * 1.5 ^ n, maxBackoffDelay)`; with the default base 5000 ms
and cap 60000 ms the sequence starts 5000, 7500, 11250, ... and is clamped
at 60000 ms for every attempt from 7 on. -/
theorem c2_backoff_delay_schedule (s : Manager) (id : String) (st : StreamRec)
    (now : Int) (n : Nat)
    (hst : s.streams id = some st)
    (hatt : (s.reconnectAttempts id).getD 0 = n)
    (hlt : n < s.maxReconnectAttempts)
    (hbase : s.reconnectDelay = 5000) (hcap : s.maxBackoffDelay = 60000) :
    (handleReconnect s id now).reconnectDelayScheduled id
        = some (min (5000 * (3 / 2 : ℚ) ^ n) 60000) ∧
      (n = 0 → (handleReconnect s id now).reconnectDelayScheduled id = some 5000) ∧
      (n = 1 → (handleReconnect s id now).reconnectDelayScheduled id = some 7500) ∧
      (n = 2 → (handleReconnect s id now).reconnectDelayScheduled id = some 11250) ∧
      (7 ≤ n → (handleReconnect s id now).reconnectDelayScheduled id = some 60000) := by
  have hmain : (handleReconnect s id now).reconnectDelayScheduled id
      = some (min (5000 * (3 / 2 : ℚ) ^ n) 60000) := by
    unfold handleReconnect
    rw [hst]
    dsimp only
    rw [hatt, if_neg (by omega)]
    simp [Manager.setStream, backoffDelay, hbase, hcap]
  refine ⟨hmain, ?_, ?_, ?_, ?_⟩
  · intro hn; subst hn
    rw [hmain, pow_zero, mul_one, min_eq_left (by norm_num : (5000 : ℚ) ≤ 60000)]
  · intro hn; subst hn
    rw [hmain, pow_one,
      show (5000 : ℚ) * (3 / 2) = 7500 by norm_num,
      min_eq_left (by norm_num : (7500 : ℚ) ≤ 60000)]
  · intro hn; subst hn
    rw [hmain,
      show (5000 : ℚ) * (3 / 2) ^ 2 = 11250 by norm_num,
      min_eq_left (by norm_num : (11250 : ℚ) ≤ 60000)]
  · intro hn
    have h12 := pow_three_halves_twelve_le n hn
    rw [hmain, min_eq_right (by linarith : (60000 : ℚ) ≤ 5000 * (3 / 2) ^ n)]

/-- Witness for C2 at the empty-default configuration, stream `"a"`,
attempt 0. -/
theorem c2_backoff_delay_schedule_witness :
    (handleReconnect mgrA "a" 5).reconnectDelayScheduled "a"
        = some (min (5000 * (3 / 2 : ℚ) ^ 0) 60000) ∧
      (0 = 0 → (handleReconnect mgrA "a" 5).reconnectDelayScheduled "a" = some 5000) ∧
      (0 = 1 → (handleReconnect mgrA "a" 5).reconnectDelayScheduled "a" = some 7500) ∧
      (0 = 2 → (handleReconnect mgrA "a" 5).reconnectDelayScheduled "a" = some 11250) ∧
      (7 ≤ 0 → (handleReconnect mgrA "a" 5).reconnectDelayScheduled "a" = some 60000) :=
  c2_backoff_delay_schedule mgrA "a" recA 5 0 rfl rfl (by decide) rfl rfl

/-- C3: when `handleReconnect` runs with the attempt counter at or above the
configured maximum, the stream is marked `status = error`,
`health = failed`, `diagnostics.healthCheckStatus = max_reconnect_exceeded`,
and no reconnect timer is scheduled for the id. -/
theorem c3_max_reconnect_terminal (s : Manager) (id : String) (st : StreamRec)
    (now : Int)
    (hst : s.streams id = some st)
    (hmax : (s.reconnectAttempts id).getD 0 ≥ s.maxReconnectAttempts)
    (htimer : s.reconnectTimers id = false) :
    (getStream (handleReconnect s id now) id).map StreamRec.status = some .error ∧
      (getStream (handleReconnect s id now) id).map StreamRec.health = some .failed ∧
      (getStream (handleReconnect s id now) id).map
          (fun r => r.diagnostics.healthCheckStatus)
        = some (some "max_reconnect_exceeded") ∧
      (handleReconnect s id now).reconnectTimers id = false ∧
      (handleReconnect s id now).reconnectDelayScheduled id
        = s.reconnectDelayScheduled id := by
  unfold handleReconnect getStream
  rw [hst]
  dsimp only
  rw [if_pos hmax]
  simp [Manager.setStream, htimer]

/-- Witness for C3 at a state whose attempt counter for `"a"` sits at the
ceiling of 10. -/
theorem c3_max_reconnect_terminal_witness :
    (getStream (handleReconnect mgrMax "a" 0) "a").map StreamRec.status = some .error ∧
      (getStream (handleReconnect mgrMax "a" 0) "a").map StreamRec.health = some .failed ∧
      (getStream (handleReconnect mgrMax "a" 0) "a").map
          (fun r => r.diagnostics.healthCheckStatus)
        = some (some "max_reconnect_exceeded") ∧
      (handleReconnect mgrMax "a" 0).reconnectTimers "a" = false ∧
      (handleReconnect mgrMax "a" 0).reconnectDelayScheduled "a"
        = mgrMax.reconnectDelayScheduled "a" :=
  c3_max_reconnect_terminal mgrMax "a" recA 0 rfl (by decide) rfl

theorem recordRecentStep_eq (l : List ErrEntry) (e : ErrEntry) :
    recordRecentStep l e = (l ++ [e]).drop ((l ++ [e]).length - 10) := by
  unfold recordRecentStep
  dsimp only
  split
  · rfl
  · rename_i hle
    have h0 : (l ++ [e]).length - 10 = 0 := by omega
    rw [h0, List.drop_zero]

theorem drop_suffix_append (x y : List ErrEntry) :
    (x.drop (x.length - 10) ++ y).drop ((x.drop (x.length - 10) ++ y).length - 10)
      = (x ++ y).drop ((x ++ y).length - 10) := by
  by_cases h : x.length ≤ 10
  · have h0 : x.length - 10 = 0 := by omega
    rw [h0, List.drop_zero]
  · have hk : x.length - 10 ≤ x.length := by omega
    rw [← List.drop_append_of_le_length hk, List.drop_drop]
    congr 1
    simp only [List.length_drop, List.length_append]
    omega

/-- C4: folding any list of recorded errors through the `errors.recent`
update of `_recordError`, starting from an empty history, leaves at most 10
entries, and exactly the most recent 10 in their original (chronological)
order — the entries dropped are precisely the oldest ones. -/
theorem c4_errors_recent_bounded (es : List ErrEntry) :
    (es.foldl recordRecentStep []).length ≤ 10 ∧
      es.foldl recordRecentStep [] = es.drop (es.length - 10) := by
  have key : ∀ es : List ErrEntry,
      es.foldl recordRecentStep [] = es.drop (es.length - 10) := by
    intro es
    induction es using List.reverseRecOn with
    | nil => rfl
    | append_singleton es e ih =>
      rw [List.foldl_append, List.foldl_cons, List.foldl_nil, ih,
        recordRecentStep_eq]
      exact drop_suffix_append es [e]
  refine ⟨?_, key es⟩
  rw [key es]
  simp only [List.length_drop]
  omega

theorem stopStream_of_stopped {s : Manager} {id : String} {st : StreamRec}
    (hst : s.streams id = some st) (h : st.status = .stopped) :
    stopStream s id = (true, s) := by
  unfold stopStream
  rw [hst]
  dsimp only
  rw [if_pos h]

theorem stopStream_post {s : Manager} {id : String} {st : StreamRec}
    (hst : s.streams id = some st) :
    ∃ st', (stopStream s id).2.streams id = some st' ∧ st'.status = .stopped := by
  unfold stopStream
  rw [hst]
  dsimp only
  by_cases h : st.status = .stopped
  · rw [if_pos h]
    exact ⟨st, hst, h⟩
  · rw [if_neg h]
    exact ⟨{ st with status := .stopped, health := .unknown }, by simp, rfl⟩

/-- C5: for an existing stream, a second `stopStream` immediately after a
first one succeeds and changes nothing: it returns `true` together with the
very state the first call produced. -/
theorem c5_stop_idempotent (s : Manager) (id : String) (st : StreamRec)
    (hst : s.streams id = some st) :
    stopStream (stopStream s id).2 id = (true, (stopStream s id).2) := by
  obtain ⟨st', h1, h2⟩ := stopStream_post hst
  exact stopStream_of_stopped h1 h2

/-- Witness for C5: stopping the one-stream running manager twice. -/
theorem c5_stop_idempotent_witness :
    stopStream (stopStream mgrRunning "a").2 "a" = (true, (stopStream mgrRunning "a").2) :=
  c5_stop_idempotent mgrRunning "a" runRec (by decide)

/-- C6 counterexample: with the default segment duration of 4 s, a newest
segment aged 20 s is older than 3 x the expected segment duration (12 s), so
the claim predicts a `'Stale segments'`/poor classification — but the check
reports `'Healthy'`/good, because the threshold the code actually applies is
`process.env.MAX_SEGMENT_AGE || 30` seconds, not 3 x the segment duration. -/
theorem c6_counterexample :
    3 * mgrRunningRes.hlsSegmentTime < 20 ∧
      ((100000 - 80000 : Int) : ℚ) / 1000 = 20 ∧
      (getStream (checkStreamSegmentHealth mgrRunningRes "a" fsStale none 100000) "a").map
          (fun r => (r.diagnostics.healthCheckStatus, r.health))
        = some (some "Healthy", .good) := by
  refine ⟨by decide, by norm_num, ?_⟩
  unfold checkStreamSegmentHealth getStream
  rw [show mgrRunningRes.streams "a" = some runRecRes from rfl]
  dsimp only
  rw [if_neg (by decide)]
  rw [show fsStale.playlist = some "#EXTM3U\nsegment_000.ts\n" from rfl]
  dsimp only
  rw [if_neg (by decide)]
  rw [show latestSeg (tsFiles fsStale) = some ⟨"segment_000.ts", 80000, 500⟩ from rfl]
  dsimp only
  rw [if_neg (by norm_num :
    ¬ (((100000 : Int) - (80000 : Int) : Int) : ℚ) / 1000 > (Option.getD (none : Option ℚ) 30))]
  simp [Manager.setStream, updateStreamHealth, runRecRes]

/-- C6 amended: during the segment health check of a running stream whose
playlist exists and lists segments, if the most-recently-modified segment
file is older than the configured threshold — the `MAX_SEGMENT_AGE`
environment value read inside the check, in seconds, defaulting to 30 s
(not 3 x the expected segment duration) — then health is classified poor and
`diagnostics.healthCheckStatus` is set to `'Stale segments'`. -/
theorem c6_stale_segments_amended (s : Manager) (id : String) (st : StreamRec)
    (fs : FsView) (env : Option ℚ) (now : Int) (content : String)
    (latest : SegFile)
    (hst : s.streams id = some st)
    (hrun : st.status = .running)
    (hpl : fs.playlist = some content)
    (hcount : ¬ segmentCountOf content = 0)
    (hlatest : latestSeg (tsFiles fs) = some latest)
    (hage : ((now - latest.mtime : Int) : ℚ) / 1000 > env.getD 30) :
    (getStream (checkStreamSegmentHealth s id fs env now) id).map
        (fun r => (r.diagnostics.healthCheckStatus, r.health))
      = some (some "Stale segments", .poor) := by
  unfold checkStreamSegmentHealth getStream
  rw [hst]
  dsimp only
  rw [if_neg (by simp [hrun]), hpl]
  dsimp only
  rw [if_neg hcount, hlatest]
  dsimp only
  rw [if_pos hage]
  simp [Manager.setStream, updateStreamHealth]

/-- Witness for the amended C6: at `now = 120000` the newest segment is 40 s
old, beyond the default 30 s threshold. -/
theorem c6_stale_segments_amended_witness :
    (getStream (checkStreamSegmentHealth mgrRunningRes "a" fsStale none 120000) "a").map
        (fun r => (r.diagnostics.healthCheckStatus, r.health))
      = some (some "Stale segments", .poor) :=
  c6_stale_segments_amended mgrRunningRes "a" runRecRes fsStale none 120000
    "#EXTM3U\nsegment_000.ts\n" ⟨"segment_000.ts", 80000, 500⟩
    rfl rfl rfl (by decide) rfl (by norm_num)

/-- C7 counterexample: the ladder maps height 1280 to `"1080p"` (not the
claimed `"720p"`) and height 320 to `"320p"` (not the claimed `"360p"`). -/
theorem c7_counterexample :
    heightLabel 1280 = "1080p" ∧ ¬ heightLabel 1280 = "720p" ∧
      heightLabel 320 = "320p" ∧ ¬ heightLabel 320 = "360p" := by
  decide

/-- C7 amended: the height-to-resolution-label mapping returns `"1080p"` for
heights 1920 and 1280, `"480p"` for height 640, `"320p"` for height 320 and
`"100p"` for height 100. -/
theorem c7_height_labels_amended :
    heightLabel 1920 = "1080p" ∧ heightLabel 1280 = "1080p" ∧
      heightLabel 640 = "480p" ∧ heightLabel 320 = "320p" ∧
      heightLabel 100 = "100p" := by
  decide

theorem redirectHop_shift (w : String → HResp) (url : String) (k : Nat) :
    redirectHop w (redirectHop w url 1) k = redirectHop w url (k + 1) := by
  induction k with
  | zero => rfl
  | succ k ih =>
    show (match (w (redirectHop w (redirectHop w url 1) k)).location with
      | some loc =>
        if 300 ≤ (w (redirectHop w (redirectHop w url 1) k)).status ∧
            (w (redirectHop w (redirectHop w url 1) k)).status < 400 then
          redirectTarget (redirectHop w (redirectHop w url 1) k) loc
        else redirectHop w (redirectHop w url 1) k
      | none => redirectHop w (redirectHop w url 1) k) = _
    rw [ih]
    rfl

theorem fetchUrl_all_redirects (w : String → HResp) :
    ∀ b url, (∀ k, k ≤ b → isRedirectResp (w (redirectHop w url k))) →
      fetchUrl w b url = Except.error "Too many redirects" := by
  intro b
  induction b with
  | zero =>
    intro url hred
    have h0 := hred 0 (by omega)
    simp only [redirectHop] at h0
    obtain ⟨h1, h2, h3⟩ := h0
    unfold fetchUrl
    cases hl : (w url).location with
    | none => rw [hl] at h3; simp at h3
    | some loc =>
      dsimp only
      rw [hl]
      dsimp only
      rw [if_pos ⟨h1, h2⟩]
  | succ b ih =>
    intro url hred
    have h0 := hred 0 (by omega)
    simp only [redirectHop] at h0
    obtain ⟨h1, h2, h3⟩ := h0
    unfold fetchUrl
    cases hl : (w url).location with
    | none => rw [hl] at h3; simp at h3
    | some loc =>
      dsimp only
      rw [hl]
      dsimp only
      rw [if_pos ⟨h1, h2⟩]
      apply ih
      intro k hk
      have hshift : redirectHop w url 1 = redirectTarget url loc := by
        simp only [redirectHop]
        rw [hl]
        dsimp only
        rw [if_pos ⟨h1, h2⟩]
      have := hred (k + 1) (by omega)
      rw [← redirectHop_shift, hshift] at this
      exact this

/-- C8 counterexample: in a network where every URL answers with a redirect,
the playlist fetch does fail with `'Too many redirects'`, but resolving the
URL does not fail — `analyzeHlsPlaylist` returns the original URL as its
result. -/
theorem c8_counterexample :
    fetchUrl loopWorld 5 "http://x/a" = Except.error "Too many redirects" ∧
      analyzeHlsPlaylist loopWorld "http://x/a" = "http://x/a" :=
  ⟨rfl, rfl⟩

/-- C8 amended: for every source URL whose playlist fetch requires more than
the bounded number (5) of HTTP redirects, the fetch itself fails with
`'Too many redirects'`, and URL resolution then falls back to returning the
original URL unchanged instead of failing. -/
theorem c8_redirect_fallback_amended (w : String → HResp) (url : String)
    (hred : ∀ k, k ≤ 5 → isRedirectResp (w (redirectHop w url k))) :
    fetchUrl w 5 url = Except.error "Too many redirects" ∧
      analyzeHlsPlaylist w url = url := by
  have hfetch := fetchUrl_all_redirects w 5 url hred
  refine ⟨hfetch, ?_⟩
  unfold analyzeHlsPlaylist
  rw [hfetch]

/-- Witness for the amended C8 in the all-redirects network. -/
theorem c8_redirect_fallback_amended_witness :
    fetchUrl loopWorld 5 "http://x/b" = Except.error "Too many redirects" ∧
      analyzeHlsPlaylist loopWorld "http://x/b" = "http://x/b" :=
  c8_redirect_fallback_amended loopWorld "http://x/b"
    (fun _ _ => ⟨by simp [loopWorld], by simp [loopWorld], rfl⟩)

/-- C9 counterexample: deleting an existing stream that is in the `error`
state with a pending reconnect timer (the state an automatic reconnect cycle
leaves behind) succeeds and removes the record, but the pending reconnect
timer for that id is not cancelled — `deleteStream` never touches the
reconnect timer table, and its internal `stopStream` runs only for `running`
streams. -/
theorem c9_counterexample :
    mgrCrashed.reconnectTimers "a" = true ∧
      (mgrCrashed.streams "a").map StreamRec.status = some .error ∧
      (deleteStream mgrCrashed "a").1 = true ∧
      (deleteStream mgrCrashed "a").2.reconnectTimers "a" = true ∧
      getStream (deleteStream mgrCrashed "a").2 "a" = none := by
  decide

/-- C9 amended: deleting an existing stream removes its segment directory and
preview image, cancels its screenshot, segment-health and monitoring timers,
drops the process handle, and makes a subsequent `getStream` return
not-found; its pending reconnect timer is cancelled only when the stream was
`running` (through the internal stop), and is left pending otherwise. -/
theorem c9_delete_stream_amended (s : Manager) (id : String) (st : StreamRec)
    (hst : s.streams id = some st) :
    (deleteStream s id).1 = true ∧
      getStream (deleteStream s id).2 id = none ∧
      (deleteStream s id).2.hlsDirs id = false ∧
      (deleteStream s id).2.screenshotFiles id = false ∧
      (deleteStream s id).2.screenshotTimers id = false ∧
      (deleteStream s id).2.segmentHealthChecks id = false ∧
      (deleteStream s id).2.monitors id = false ∧
      (deleteStream s id).2.processes id = false ∧
      (deleteStream s id).2.reconnectTimers id =
        (if st.status = .running then false else s.reconnectTimers id) := by
  unfold deleteStream getStream
  rw [hst]
  dsimp only
  by_cases hrun : st.status = .running
  · rw [if_pos hrun, if_pos hrun]
    have hrt : (stopStream s id).2.reconnectTimers id = false := by
      unfold stopStream
      rw [hst]
      dsimp only
      rw [if_neg (by simp [hrun])]
      simp
    simp [hrt]
  · rw [if_neg hrun, if_neg hrun]
    simp

/-- Witness for the amended C9: deleting the running one-stream manager. -/
theorem c9_delete_stream_amended_witness :
    (deleteStream mgrRunning "a").1 = true ∧
      getStream (deleteStream mgrRunning "a").2 "a" = none ∧
      (deleteStream mgrRunning "a").2.hlsDirs "a" = false ∧
      (deleteStream mgrRunning "a").2.screenshotFiles "a" = false ∧
      (deleteStream mgrRunning "a").2.screenshotTimers "a" = false ∧
      (deleteStream mgrRunning "a").2.segmentHealthChecks "a" = false ∧
      (deleteStream mgrRunning "a").2.monitors "a" = false ∧
      (deleteStream mgrRunning "a").2.processes "a" = false ∧
      (deleteStream mgrRunning "a").2.reconnectTimers "a" =
        (if runRec.status = .running then false else mgrRunning.reconnectTimers "a") :=
  c9_delete_stream_amended mgrRunning "a" runRec (by decide)

/-- C10: `addStream` creates and returns a record carrying the freshly
generated id, with status `stopped`, health `unknown`, zero uptime and zero
restarts; the record is immediately retrievable via `getStream`, no other
stream is touched, and the process table is completely unchanged — no
subprocess is launched and no handle registered. -/
theorem c10_add_stream (s : Manager) (newId name url : String) (now : Int)
    (_hfresh : s.streams newId = none) :
    (addStream s newId name url now).1.id = newId ∧
      (addStream s newId name url now).1.status = .stopped ∧
      (addStream s newId name url now).1.health = .unknown ∧
      (addStream s newId name url now).1.stats.uptime = 0 ∧
      (addStream s newId name url now).1.stats.restarts = 0 ∧
      getStream (addStream s newId name url now).2 newId
        = some (addStream s newId name url now).1 ∧
      (addStream s newId name url now).2.processes = s.processes ∧
      (∀ j, ¬ j = newId → (addStream s newId name url now).2.streams j = s.streams j) := by
  refine ⟨rfl, rfl, rfl, rfl, rfl, ?_, rfl, ?_⟩
  · simp [addStream, getStream, Manager.setStream]
  · intro j hj
    simp [addStream, Manager.setStream, upd_other _ _ _ _ hj]

/-- Witness for C10: adding a stream to the empty manager. -/
theorem c10_add_stream_witness :
    (addStream emptyMgr "a" "cam" "http://src/video.m3u8" 0).1.id = "a" ∧
      (addStream emptyMgr "a" "cam" "http://src/video.m3u8" 0).1.status = .stopped ∧
      (addStream emptyMgr "a" "cam" "http://src/video.m3u8" 0).1.health = .unknown ∧
      (addStream emptyMgr "a" "cam" "http://src/video.m3u8" 0).1.stats.uptime = 0 ∧
      (addStream emptyMgr "a" "cam" "http://src/video.m3u8" 0).1.stats.restarts = 0 ∧
      getStream (addStream emptyMgr "a" "cam" "http://src/video.m3u8" 0).2 "a"
        = some (addStream emptyMgr "a" "cam" "http://src/video.m3u8" 0).1 ∧
      (addStream emptyMgr "a" "cam" "http://src/video.m3u8" 0).2.processes = emptyMgr.processes ∧
      (∀ j, ¬ j = "a" →
        (addStream emptyMgr "a" "cam" "http://src/video.m3u8" 0).2.streams j = emptyMgr.streams j) :=
  c10_add_stream emptyMgr "a" "cam" "http://src/video.m3u8" 0 rfl

/-- Witness for C1: one explicit start step from the freshly-added stream. -/
theorem c1_status_process_invariant_witness :
    (runRec.status = .running → mgrRunning.processes "a" = true) ∧
      ((runRec.status = .stopped ∨ runRec.status = .error) →
        mgrRunning.processes "a" = false) :=
  c1_status_process_invariant mgrA mgrRunning
    (by
      intro id st hst
      by_cases h : id = "a"
      · subst h
        rw [show mgrA.streams "a" = some recA from rfl] at hst
        injection hst with h2
        subst h2
        exact ⟨by decide, by decide⟩
      · have hnone : mgrA.streams id = none := by
          show upd emptyMgr.streams "a" (some recA) id = none
          rw [upd_other _ _ _ _ h]
          rfl
        rw [hnone] at hst
        cases hst)
    (Relation.ReflTransGen.single (Step.start mgrA "a" true none none true 0))
    "a" runRec (by decide)
